import Mathlib

/-!
Verification of the bet-ledger / settlement core of `app.py` (football bet
tracker).  The definitions below are a shallow embedding of the Python source:

* monetary amounts and odds (Python floats) are modelled as exact rationals
  `ℚ`; `round(x, 2)` is modelled by `round2` (floor of `x*100 + 1/2` over 100;
  Python rounds half-to-even on binary floats, but no statement proved here
  evaluates `round2` at an exact half-cent tie, so the tie direction is
  immaterial);
* timestamps are modelled as `Nat` (only their ordering is ever used);
* a pandas `DataFrame` of bets is modelled as a `List Bet` in row order;
* Dash callbacks that return `no_update` on a guard failure or caught
  exception are modelled as `Except`-valued functions; an `.error` result
  means the callback left the stored ledger unchanged and persisted nothing
  (the Python code calls `save_data` only on the success paths).
-/

/-- Wager type, column `wager_type` of the `bets` table.  `add_bet` only ever
creates the strings `'Single'` and `'Accumulator'`. -/
inductive WagerType where
  | Single
  | Accumulator
deriving DecidableEq

/-- Status column, the strings `'Pending'`, `'Win'`, `'Loss'`. -/
inductive Status where
  | Pending
  | Win
  | Loss
deriving DecidableEq

/-- One selection of a wager: `{'match': m, 'prediction': p, 'odds': o}` as
built in `add_bet` / `save_edit`.  (`match` is a Lean keyword, hence
`matchName`.) -/
structure Selection where
  matchName : String
  prediction : String
  odds : ℚ
deriving DecidableEq

/-- The fields of an account row relevant to the core (`id`/`name` are only
used for scoping and display). -/
structure Account where
  initial_bankroll : ℚ
  max_bet_percent : ℚ
deriving DecidableEq

/-- One row of the `bets` table. -/
structure Bet where
  date : Nat
  matchName : String
  prediction : String
  bet_amount : ℚ
  odds : ℚ
  outcome : Option String
  result_amount : ℚ
  profit_loss : ℚ
  wager_type : WagerType
  selections : List Selection
  slip_no : Nat
  status : Status
deriving DecidableEq

/-- Python `round(x, 2)`: round to two decimal places. -/
def round2 (x : ℚ) : ℚ := ((⌊x * 100 + 1 / 2⌋ : ℤ) : ℚ) / 100

/-- The four fields written by a settlement: `(new_outcome, result_amount,
profit_loss, status)` as computed in `update_outcome` / `save_edit`. -/
structure SettleResult where
  outcome : Option String
  result_amount : ℚ
  profit_loss : ℚ
  status : Status
deriving DecidableEq

/-- Reset path: `new_outcome = None, result_amount = 0.0, profit_loss = 0.0,
status = 'Pending'`. -/
def resetRes : SettleResult := ⟨none, 0, 0, Status.Pending⟩

/-- Won-payout formulas: `result_amount = round(bet_amount * odds, 2)`,
`profit_loss = round(result_amount - bet_amount, 2)`, `status = 'Win'`,
with `o` the string stored into `outcome`. -/
def winRes (o : String) (bet odds : ℚ) : SettleResult :=
  ⟨some o, round2 (bet * odds), round2 (round2 (bet * odds) - bet), Status.Win⟩

/-- Lost formulas: `result_amount = 0.0`, `profit_loss = round(-bet_amount, 2)`,
`status = 'Loss'`, with `o` the string stored into `outcome`. -/
def lossRes (o : String) (bet : ℚ) : SettleResult :=
  ⟨some o, 0, round2 (-bet), Status.Loss⟩

/-- Write a settlement result into a row (`df_new.at[idx, 'outcome'] = ...`
etc., lines 1242-1245 resp. 1091-1094 of `app.py`). -/
def applyRes (b : Bet) (r : SettleResult) : Bet :=
  { b with outcome := r.outcome, result_amount := r.result_amount,
           profit_loss := r.profit_loss, status := r.status }

/-- The non-`'Pending'` settlement branches, shared verbatim between
`update_outcome` (lines 1201-1241) and `save_edit` (lines 1055-1090):
for an Accumulator only `'Win'`/`'Loss'` are accepted (`none` models the
`InvalidOutcome` branch); for a Single, `'Win'` confirms the stored
prediction, `'Loss'` stores the dummy string `'Loss'`, any other
declaration is compared against the prediction. -/
def settle_core (wt : WagerType) (pred : String) (bet odds : ℚ)
    (decl : String) : Option SettleResult :=
  match wt with
  | WagerType.Accumulator =>
    if decl = "Win" ∨ decl = "Loss" then
      some (if decl = "Win" then winRes "Win" bet odds else lossRes "Loss" bet)
    else none
  | WagerType.Single =>
    if decl = "Win" ∨ decl = "Loss" then
      some (if decl = "Win" then winRes pred bet odds else lossRes "Loss" bet)
    else if decl = pred then some (winRes decl bet odds)
    else some (lossRes decl bet)

/-- Errors surfaced by the callbacks; each corresponds to an early `return`
with `no_update` for the data store, so the ledger is unchanged and nothing
is saved. -/
inductive OpErr where
  /-- `update_outcome` guard: `... and outcome_input` is falsy. -/
  | noInput
  /-- `df_new.iloc[idx]` / `df_new.drop(idx)` raised (row does not exist). -/
  | notFound
  /-- "Invalid outcome for Accumulator. Use 'Win', 'Loss', or 'Pending'." -/
  | invalidOutcome
  /-- "Missing match, prediction, or odds for Single bet." -/
  | missingField
  /-- "Missing selections for Accumulator." -/
  | missingSelections
  /-- "Invalid selections format for Accumulator. Each line should be 'Match Prediction Odds'." -/
  | invalidFormat
  /-- `add_bet` guard: `... and bet_amount` is falsy. -/
  | noAmount
  /-- `save_edit` guard: "Update failed - incomplete data." -/
  | incomplete
deriving DecidableEq

/-- Settlement of one row by `update_outcome` (lines 1195-1241): `'Pending'`
resets, otherwise the shared branches run on the row's own stored fields. -/
def update_outcome_row (b : Bet) (decl : String) : Except OpErr Bet :=
  if decl = "Pending" then Except.ok (applyRes b resetRes)
  else
    match settle_core b.wager_type b.prediction b.bet_amount b.odds decl with
    | some r => Except.ok (applyRes b r)
    | none => Except.error OpErr.invalidOutcome

/-- Outcome handling of `save_edit` (lines 1050-1090): here an empty
declaration also resets (`if outcome_input == 'Pending' or not outcome_input`),
and the branches run on the freshly edited field values. -/
def save_edit_outcome (wt : WagerType) (pred : String) (bet odds : ℚ)
    (decl : String) : Except OpErr SettleResult :=
  if decl = "Pending" ∨ decl = "" then Except.ok resetRes
  else
    match settle_core wt pred bet odds decl with
    | some r => Except.ok r
    | none => Except.error OpErr.invalidOutcome

/-- Splitting a character list on runs of whitespace, dropping empty tokens;
`acc` carries the characters of the current token in reverse. -/
def wsSplit (acc : List Char) : List Char → List (List Char)
  | [] => if acc = [] then [] else [acc.reverse]
  | c :: cs =>
    if c.isWhitespace then
      if acc = [] then wsSplit [] cs else acc.reverse :: wsSplit [] cs
    else wsSplit (c :: acc) cs

/-- Python `line.split()`: split on runs of whitespace, dropping empty
tokens. -/
def pySplit (s : String) : List String :=
  (wsSplit [] s.toList).map String.mk

/-- Splitting a character list at every newline (Python `text.split('\n')`,
which keeps empty pieces). -/
def lineSplit (acc : List Char) : List Char → List (List Char)
  | [] => [acc.reverse]
  | c :: cs =>
    if c = '\n' then acc.reverse :: lineSplit [] cs else lineSplit (c :: acc) cs

/-- Python `line.strip()`: drop leading and trailing whitespace. -/
def trimChars (cs : List Char) : List Char :=
  ((cs.dropWhile Char.isWhitespace).reverse.dropWhile Char.isWhitespace).reverse

/-- The line preprocessing `[line.strip() for line in text.split('\n') if line.strip()]`. -/
def pyLines (text : String) : List String :=
  ((lineSplit [] text.toList).map (fun l => String.mk (trimChars l))).filter
    (fun l => l ≠ "")

/-- Python `' '.join(words)`. -/
def joinTokens : List String → String
  | [] => ""
  | [w] => w
  | w :: ws => w ++ " " ++ joinTokens ws

/-- Numeric value of a digit string. -/
def digitsToNat (ds : List Char) : Nat :=
  ds.foldl (fun a c => 10 * a + (c.toNat - 48)) 0

/-- Split a leading run of decimal digits off a character list. -/
def takeDigits : List Char → List Char × List Char
  | [] => ([], [])
  | c :: cs =>
    if c.isDigit then
      let p := takeDigits cs
      (c :: p.1, p.2)
    else ([], c :: cs)

/-- Value of a mantissa with integer part `ip` and fractional part `fp`. -/
def mantissaVal (ip fp : List Char) : ℚ :=
  (digitsToNat ip : ℚ) + (digitsToNat fp : ℚ) / ((10 : ℚ) ^ fp.length)

/-- Parse the mantissa `digits [. digits]` (at least one digit somewhere),
returning its value and the unconsumed rest. -/
def mantissaSplit (cs : List Char) : Option (ℚ × List Char) :=
  let p := takeDigits cs
  match p.2 with
  | '.' :: r2 =>
    let q := takeDigits r2
    if p.1 = [] ∧ q.1 = [] then none else some (mantissaVal p.1 q.1, q.2)
  | r => if p.1 = [] then none else some ((digitsToNat p.1 : ℚ), r)

/-- Parse an exponent body: optional sign then a nonempty digit run. -/
def parseExpPart : List Char → Option ℤ
  | [] => none
  | '+' :: ds =>
    if ds ≠ [] ∧ ds.all Char.isDigit then some (digitsToNat ds : ℤ) else none
  | '-' :: ds =>
    if ds ≠ [] ∧ ds.all Char.isDigit then some (-(digitsToNat ds : ℤ)) else none
  | ds =>
    if ds ≠ [] ∧ ds.all Char.isDigit then some (digitsToNat ds : ℤ) else none

/-- Parse an unsigned float literal: mantissa with optional `e`/`E` exponent. -/
def parseUnsigned (cs : List Char) : Option ℚ :=
  match mantissaSplit cs with
  | none => none
  | some (m, rest) =>
    match rest with
    | [] => some m
    | e :: es =>
      if e = 'e' ∨ e = 'E' then
        match parseExpPart es with
        | some z => some (m * (10 : ℚ) ^ z)
        | none => none
      else none

/-- Python `float(s)` on a whitespace-free token, modelled on the grammar
`[+-] (digits [. digits] | . digits) [(e|E) [+-] digits]`.  (The special
literals `inf`/`nan` and underscore separators, which Python also accepts,
are not modelled; nothing proved here depends on them.)  Note that Python
`float` accepts any sign — there is no positivity requirement. -/
def parseFloat? (s : String) : Option ℚ :=
  match s.toList with
  | '+' :: cs => parseUnsigned cs
  | '-' :: cs => (parseUnsigned cs).map (fun q => -q)
  | cs => parseUnsigned cs

/-- One iteration of the selection-parsing loop (lines 879-889): tokenize on
whitespace, need at least 3 tokens, the last must parse as a float (the odds),
the second-to-last is the prediction, the preceding tokens joined by single
spaces form the match name; `none` models `continue`. -/
def parseLine (line : String) : Option Selection :=
  match (pySplit line).reverse with
  | od :: pr :: m1 :: ms =>
    match parseFloat? od with
    | some q => some ⟨joinTokens (m1 :: ms).reverse, pr, q⟩
    | none => none
  | _ => none

/-- The whole parsing loop over the free-text selections input: invalid lines
are silently skipped. -/
def parse_selections (text : String) : List Selection :=
  (pyLines text).filterMap parseLine

/-- `reduce(operator.mul, [s['odds'] for s in selections], 1.0)`. -/
def prodOdds (sels : List Selection) : ℚ :=
  (sels.map (fun s => s.odds)).foldl (fun a b => a * b) 1

/-- Accumulator branch of the input validation in `add_bet` / `save_edit`
(lines 875-895 resp. 1021-1041): returns
`(display_match, display_prediction, odds, selections)`. -/
def acc_fields (text : String) :
    Except OpErr (String × String × ℚ × List Selection) :=
  if text = "" then Except.error OpErr.missingSelections
  else
    let sels := parse_selections text
    if sels = [] then Except.error OpErr.invalidFormat
    else
      Except.ok ("Accumulator (" ++ toString sels.length ++ " selections)",
        "Accumulator Win", prodOdds sels, sels)

/-- Single branch of the input validation (lines 867-873 resp. 1013-1019):
a falsy match, prediction or odds input is a fatal error; the single
selection is built from the three discrete fields. -/
def single_fields (m p : String) (odds_input : ℚ) :
    Except OpErr (String × String × ℚ × List Selection) :=
  if m = "" ∨ p = "" ∨ odds_input = 0 then Except.error OpErr.missingField
  else Except.ok (m, p, odds_input, [⟨m, p, odds_input⟩])

/-- Field construction for either wager type. -/
def mk_fields (wt : WagerType) (m p text : String) (odds_input : ℚ) :
    Except OpErr (String × String × ℚ × List Selection) :=
  match wt with
  | WagerType.Single => single_fields m p odds_input
  | WagerType.Accumulator => acc_fields text

/-- Stable insertion of a row into a date-sorted list. -/
def insertByDate (b : Bet) : List Bet → List Bet
  | [] => [b]
  | c :: cs => if b.date ≤ c.date then b :: c :: cs else c :: insertByDate b cs

/-- `df.sort_values('date')`: reorder the rows by ascending date.  (pandas
uses an unstable quicksort by default, so the relative order of equal-date
rows is unspecified; this embedding uses a stable insertion sort, and no
statement proved here depends on the tie order.) -/
def sortByDate : List Bet → List Bet
  | [] => []
  | b :: bs => insertByDate b (sortByDate bs)

/-- `df['slip_no'] = df.index + 1` after the sort: assign `n, n+1, ...` down
the list. -/
def assignSlips : Nat → List Bet → List Bet
  | _, [] => []
  | n, b :: bs => { b with slip_no := n } :: assignSlips (n + 1) bs

/-- `renumber_slips` (lines 164-168): sort all rows by date ascending and
assign slip numbers `1..N` positionally. -/
def renumber_slips (df : List Bet) : List Bet :=
  assignSlips 1 (sortByDate df)

/-- `max_slip = df['slip_no'].max() ... else 0` (line 897). -/
def maxSlip (df : List Bet) : Nat :=
  (df.map (fun b => b.slip_no)).foldl max 0

/-- The `add_bet` callback (lines 847-925).  Returns the `is_risky` flag and
the post-mutation ledger; the risk check is advisory and never blocks the
add. -/
def add_bet (acc : Account) (wt : WagerType) (m p text : String)
    (bet_amount odds_input : ℚ) (df : List Bet) (now : Nat) :
    Except OpErr (Bool × List Bet) :=
  if bet_amount = 0 then Except.error OpErr.noAmount
  else
    let total_profit := (df.map (fun b => b.profit_loss)).sum
    let current_bankroll := acc.initial_bankroll + total_profit
    let max_allowed_bet := acc.max_bet_percent / 100 * current_bankroll
    let is_risky := decide (max_allowed_bet < bet_amount)
    match mk_fields wt m p text odds_input with
    | Except.error e => Except.error e
    | Except.ok (dm, dp, odds, sels) =>
      let new_bet : Bet :=
        { date := now, matchName := dm, prediction := dp,
          bet_amount := bet_amount, odds := odds, outcome := none,
          result_amount := 0, profit_loss := 0, wager_type := wt,
          selections := sels, slip_no := maxSlip df + 1,
          status := Status.Pending }
      Except.ok (is_risky, renumber_slips (df ++ [new_bet]))

/-- The `save_edit` callback (lines 997-1103): apply the edited fields to the
selected row, re-settle against the new values, renumber.  Any error path
returns `no_update`, leaving the ledger unchanged. -/
def save_edit (wt : WagerType) (m p : String) (bet_amount odds_input : ℚ)
    (decl : String) (text : String) (df : List Bet) (idx : Nat) :
    Except OpErr (List Bet) :=
  if bet_amount = 0 then Except.error OpErr.incomplete
  else
    match df[idx]? with
    | none => Except.error OpErr.notFound
    | some row =>
      match mk_fields wt m p text odds_input with
      | Except.error e => Except.error e
      | Except.ok (dm, dp, odds, sels) =>
        match save_edit_outcome wt dp bet_amount odds decl with
        | Except.error e => Except.error e
        | Except.ok r =>
          let row2 := applyRes
            { row with wager_type := wt, matchName := dm, prediction := dp,
                       bet_amount := bet_amount, odds := odds,
                       selections := sels } r
          Except.ok (renumber_slips (df.set idx row2))

/-- The `update_outcome` callback (lines 1177-1257): an empty declaration
fails the guard (nothing happens), a missing row raises (caught, nothing
happens), otherwise the row is settled and the ledger renumbered. -/
def update_outcome (df : List Bet) (idx : Nat) (decl : String) :
    Except OpErr (List Bet) :=
  if decl = "" then Except.error OpErr.noInput
  else
    match df[idx]? with
    | none => Except.error OpErr.notFound
    | some b =>
      match update_outcome_row b decl with
      | Except.ok b2 => Except.ok (renumber_slips (df.set idx b2))
      | Except.error e => Except.error e

/-- The `confirm_delete` callback (lines 1141-1160): drop the selected row and
renumber; a missing row raises (caught, nothing happens). -/
def confirm_delete (df : List Bet) (idx : Nat) : Except OpErr (List Bet) :=
  if idx < df.length then Except.ok (renumber_slips (df.eraseIdx idx))
  else Except.error OpErr.notFound

/-- `load_data` (lines 128-162) restricted to the core: rows come back from
the store and are renumbered (line 147); an empty result is the empty
ledger. -/
def load_data (rows : List Bet) : List Bet :=
  if rows.isEmpty then [] else renumber_slips rows

/-- One user-level mutating operation on an account's ledger. -/
inductive Op where
  | add (acc : Account) (wt : WagerType) (m p text : String)
      (bet odds : ℚ) (now : Nat)
  | settle (idx : Nat) (decl : String)
  | edit (idx : Nat) (wt : WagerType) (m p : String) (bet odds : ℚ)
      (decl text : String)
  | delete (idx : Nat)
  | load (rows : List Bet)

/-- Effect of an operation on the stored ledger: on any error the callback
returns `no_update` and the ledger is unchanged. -/
def applyOp (df : List Bet) : Op → List Bet
  | Op.add acc wt m p text bet odds now =>
    match add_bet acc wt m p text bet odds df now with
    | Except.ok (_, df2) => df2
    | Except.error _ => df
  | Op.settle idx decl =>
    match update_outcome df idx decl with
    | Except.ok df2 => df2
    | Except.error _ => df
  | Op.edit idx wt m p bet odds decl text =>
    match save_edit wt m p bet odds decl text df idx with
    | Except.ok df2 => df2
    | Except.error _ => df
  | Op.delete idx =>
    match confirm_delete df idx with
    | Except.ok df2 => df2
    | Except.error _ => df
  | Op.load rows => load_data rows

/-- The win/loss classification used by the Analytics Engine, identical in
`get_streaks` (lines 221-223) and `update_display` (lines 1345-1347): a
settled Single is a win iff `outcome == prediction` (exact, case-sensitive),
a settled Accumulator iff `outcome == 'Win'`.  The stored `status` and the
sign of `profit_loss` play no role. -/
def is_win (b : Bet) : Bool :=
  (b.wager_type == WagerType.Single && b.outcome == some b.prediction) ||
  (b.wager_type == WagerType.Accumulator && b.outcome == some "Win")

/-- Partition a boolean sequence into its maximal runs of identical value,
as the `streak_group` cumulative-sum grouping of `get_streaks` (lines
224-228) does: each group is reported as (value, length), in order. -/
def chunkRuns : List Bool → List (Bool × Nat)
  | [] => []
  | x :: xs =>
    match chunkRuns xs with
    | [] => [(x, 1)]
    | (y, n) :: rest =>
      if x = y then (x, n + 1) :: rest else (x, 1) :: (y, n) :: rest

/-- Longest length among the maximal runs of value `b` (0 if there are none),
the `streaks[...]['length'].max()` step of `get_streaks` (lines 229-230). -/
def streakMax (b : Bool) (l : List Bool) : Nat :=
  ((chunkRuns l).filter (fun p => p.1 == b)).foldr (fun p acc => max p.2 acc) 0

/-- The date-ordered sequence of win/loss booleans of the settled rows, the
input to the streak computation: sort by date, keep rows with a non-null
outcome, map to `is_win`. -/
def isWinSeq (df : List Bet) : List Bool :=
  ((sortByDate df).filter (fun b => b.outcome.isSome)).map is_win

/-- `get_streaks` (lines 214-231): `(max_win_streak, max_loss_streak)` over
the settled rows in date order.  The early returns for an empty frame /
no settled rows coincide with the general computation, whose value on the
empty sequence is `(0, 0)`. -/
def get_streaks (df : List Bet) : Nat × Nat :=
  let rs := isWinSeq df
  (streakMax true rs, streakMax false rs)

/-- Independent formulation of "length of the longest run of `b`", by a
single left-to-right scan carrying the current run length and the best so
far.  Used as the specification side for the streak claim. -/
def maxRunAux (b : Bool) : List Bool → Nat → Nat → Nat
  | [], cur, best => max cur best
  | x :: xs, cur, best =>
    if x = b then maxRunAux b xs (cur + 1) best
    else maxRunAux b xs 0 (max cur best)

/-- Length of the longest maximal run of value `b` in `l`. -/
def maxRun (b : Bool) (l : List Bool) : Nat := maxRunAux b l 0 0

/-- Claim-side line validation for the Selection Parser, following the spec
text: at least 3 whitespace tokens, the last token parses as a float, the
second-to-last is the prediction, all preceding tokens joined by spaces are
the match name. -/
def specLineParse (line : String) : Option Selection :=
  let ws := pySplit line
  if ws.length < 3 then none
  else
    match ws.getLast?, ws[ws.length - 2]? with
    | some last, some pr =>
      match parseFloat? last with
      | some q => some ⟨joinTokens (ws.take (ws.length - 2)), pr, q⟩
      | none => none
    | _, _ => none

/-- The claim as frozen additionally requires the odds token to parse as a
POSITIVE float; this variant implements that reading literally. -/
def specLineParsePos (line : String) : Option Selection :=
  match specLineParse line with
  | some s => if 0 < s.odds then some s else none
  | none => none

/-- Status/outcome coherence of one ledger row, the invariant stated in the
spec's data model: `status = Pending ⟺ outcome is null`, and a positive
stored `profit_loss` only on rows marked `Win`. -/
def betInv (b : Bet) : Prop :=
  (b.status = Status.Pending ↔ b.outcome = none) ∧
  (0 < b.profit_loss → b.status = Status.Win)

/-- Data-model side conditions of an operation: stakes are positive floats
(spec section 3) and loaded rows were produced by this application's own
saves (hence already coherent). -/
def wfOp : Op → Prop
  | Op.add _ _ _ _ _ bet _ _ => 0 < bet
  | Op.settle _ _ => True
  | Op.edit _ _ _ _ bet _ _ _ => 0 < bet
  | Op.delete _ => True
  | Op.load rows => ∀ b ∈ rows, betInv b ∧ 0 < b.bet_amount

/-- The renumbering invariant of the ledger: slip numbers are exactly
`1..N` down the stored row order, and the stored rows are in ascending
date order (so slip 1 is the earliest date). -/
def slipInv (df : List Bet) : Prop :=
  df.map (fun b => b.slip_no) = List.range' 1 df.length ∧
  df.Pairwise (fun a c => a.date ≤ c.date)

/-- Coherence of a settlement result, mirror of `betInv` on the four written
fields. -/
def resInv (r : SettleResult) : Prop :=
  (r.status = Status.Pending ↔ r.outcome = none) ∧
  (0 < r.profit_loss → r.status = Status.Win)

/-- Default account of the schema: `initial_bankroll = 1000.0`,
`max_bet_percent = 5.0`. -/
def a0 : Account := ⟨1000, 5⟩

/-- Pending Single wager with a stake of a tenth of a cent. -/
def cex1Bet : Bet :=
  ⟨1, "Arsenal vs Chelsea", "Arsenal", 1 / 1000, 2, none, 0, 0,
   WagerType.Single, [⟨"Arsenal vs Chelsea", "Arsenal", 2⟩], 1, Status.Pending⟩

/-- Pending Single wager, stake 50 at odds 2.0 (spec test 4). -/
def w1Bet : Bet :=
  ⟨1, "Arsenal vs Chelsea", "Arsenal", 50, 2, none, 0, 0,
   WagerType.Single, [⟨"Arsenal vs Chelsea", "Arsenal", 2⟩], 1, Status.Pending⟩

/-- Pending Accumulator wager, stake 100 at combined odds 3.5 (spec test 3). -/
def w2Bet : Bet :=
  ⟨1, "Accumulator (2 selections)", "Accumulator Win", 100, 7 / 2, none, 0, 0,
   WagerType.Accumulator, [⟨"A", "X", 7 / 4⟩, ⟨"B", "Y", 2⟩], 1, Status.Pending⟩

/-- Pending Single wager at odds 1.0. -/
def cex4Bet : Bet :=
  ⟨1, "M", "A", 10, 1, none, 0, 0, WagerType.Single, [⟨"M", "A", 1⟩], 1,
   Status.Pending⟩

/-- Pending Single wager, stake 10 at odds 2.0. -/
def w4Bet : Bet :=
  ⟨1, "M", "A", 10, 2, none, 0, 0, WagerType.Single, [⟨"M", "A", 2⟩], 1,
   Status.Pending⟩

/-- A previously settled (won) Single wager. -/
def cex5Bet : Bet :=
  ⟨1, "M", "A", 10, 2, some "A", 20, 10, WagerType.Single, [⟨"M", "A", 2⟩], 1,
   Status.Win⟩

/-- Pending Accumulator wager with two selections at odds 2.0 each. -/
def w6Bet : Bet :=
  ⟨1, "Accumulator (2 selections)", "Accumulator Win", 10, 4, none, 0, 0,
   WagerType.Accumulator, [⟨"A", "X", 2⟩, ⟨"B", "Y", 2⟩], 1, Status.Pending⟩

/-- Pending Single wager whose prediction is the literal string "Loss",
with a stake of three tenths of a cent. -/
def cex10Bet : Bet :=
  ⟨1, "M", "Loss", 3 / 1000, 2, none, 0, 0, WagerType.Single,
   [⟨"M", "Loss", 2⟩], 1, Status.Pending⟩

/-- Pending Single wager whose prediction is the literal string "Loss". -/
def w10Bet : Bet :=
  ⟨1, "M", "Loss", 10, 2, none, 0, 0, WagerType.Single, [⟨"M", "Loss", 2⟩], 1,
   Status.Pending⟩

/-- Settled Single fixture for the streak example: prediction "W", declared
outcome `o`, at date `d`. -/
def exBet (d : Nat) (o : String) : Bet :=
  ⟨d, "M", "W", 10, 2, some o, if o = "W" then 20 else 0,
   if o = "W" then 10 else -10, WagerType.Single, [], d,
   if o = "W" then Status.Win else Status.Loss⟩

/-- Ledger whose settled is-win sequence in date order is W,W,L,W,W,W,L,L
(spec test 6). -/
def exLedger : List Bet :=
  [exBet 1 "W", exBet 2 "W", exBet 3 "L", exBet 4 "W", exBet 5 "W",
   exBet 6 "W", exBet 7 "L", exBet 8 "L"]

/-- A ledger with one pending (unsettled) wager only. -/
def exPending : Bet :=
  ⟨1, "M", "W", 10, 2, none, 0, 0, WagerType.Single, [], 1, Status.Pending⟩

/-- Expected row after adding a Single bet of stake `amt` at odds 2 to an
empty ledger at time 7. -/
def w8Bet (amt : ℚ) : Bet :=
  ⟨7, "M", "P", amt, 2, none, 0, 0, WagerType.Single, [⟨"M", "P", 2⟩], 1,
   Status.Pending⟩

theorem mem_insertByDate {a b : Bet} {l : List Bet} :
    a ∈ insertByDate b l ↔ a = b ∨ a ∈ l := by
  induction l with
  | nil => simp [insertByDate]
  | cons c cs ih =>
    by_cases h : b.date ≤ c.date
    · simp [insertByDate, h]
    · simp only [insertByDate, if_neg h, List.mem_cons, ih]
      tauto

theorem mem_sortByDate {a : Bet} {l : List Bet} :
    a ∈ sortByDate l ↔ a ∈ l := by
  induction l with
  | nil => simp [sortByDate]
  | cons b bs ih => simp [sortByDate, mem_insertByDate, ih]

theorem length_insertByDate (b : Bet) (l : List Bet) :
    (insertByDate b l).length = l.length + 1 := by
  induction l with
  | nil => rfl
  | cons c cs ih =>
    by_cases h : b.date ≤ c.date
    · simp [insertByDate, h]
    · simp [insertByDate, h, ih]

theorem length_sortByDate (l : List Bet) :
    (sortByDate l).length = l.length := by
  induction l with
  | nil => rfl
  | cons b bs ih => simp [sortByDate, length_insertByDate, ih]

theorem pairwise_insertByDate {b : Bet} {l : List Bet}
    (h : l.Pairwise (fun x y => x.date ≤ y.date)) :
    (insertByDate b l).Pairwise (fun x y => x.date ≤ y.date) := by
  induction l with
  | nil => simp [insertByDate]
  | cons c cs ih =>
    rcases List.pairwise_cons.mp h with ⟨hc, hcs⟩
    by_cases hbc : b.date ≤ c.date
    · simp only [insertByDate, if_pos hbc, List.pairwise_cons]
      exact ⟨fun x hx => by
        rcases List.mem_cons.mp hx with rfl | hx
        · exact hbc
        · exact le_trans hbc (hc x hx), hc, hcs⟩
    · simp only [insertByDate, if_neg hbc, List.pairwise_cons]
      refine ⟨fun x hx => ?_, ih hcs⟩
      rcases mem_insertByDate.mp hx with rfl | hx
      · exact le_of_not_le hbc
      · exact hc x hx

theorem pairwise_sortByDate (l : List Bet) :
    (sortByDate l).Pairwise (fun x y => x.date ≤ y.date) := by
  induction l with
  | nil => simp [sortByDate]
  | cons b bs ih => exact pairwise_insertByDate ih

theorem length_assignSlips (n : Nat) (l : List Bet) :
    (assignSlips n l).length = l.length := by
  induction l generalizing n with
  | nil => rfl
  | cons b bs ih => simp [assignSlips, ih]

theorem map_slip_assignSlips (n : Nat) (l : List Bet) :
    (assignSlips n l).map (fun b => b.slip_no) = List.range' n l.length := by
  induction l generalizing n with
  | nil => rfl
  | cons b bs ih => simp [assignSlips, ih, List.range'_succ]

theorem mem_assignSlips {a : Bet} {n : Nat} {l : List Bet}
    (h : a ∈ assignSlips n l) : ∃ b ∈ l, ∃ k, a = { b with slip_no := k } := by
  induction l generalizing n with
  | nil => simp [assignSlips] at h
  | cons b bs ih =>
    rcases List.mem_cons.mp h with rfl | h
    · exact ⟨b, List.mem_cons_self b bs, n, rfl⟩
    · rcases ih h with ⟨c, hc, k, hk⟩
      exact ⟨c, List.mem_cons_of_mem b hc, k, hk⟩

theorem pairwise_assignSlips {n : Nat} {l : List Bet}
    (h : l.Pairwise (fun x y => x.date ≤ y.date)) :
    (assignSlips n l).Pairwise (fun x y => x.date ≤ y.date) := by
  induction l generalizing n with
  | nil => exact List.Pairwise.nil
  | cons b bs ih =>
    rcases List.pairwise_cons.mp h with ⟨hb, hbs⟩
    refine List.pairwise_cons.mpr ⟨fun x hx => ?_, ih hbs⟩
    rcases mem_assignSlips hx with ⟨c, hc, k, rfl⟩
    exact hb c hc

theorem renumber_slipInv (df : List Bet) : slipInv (renumber_slips df) := by
  constructor
  · rw [renumber_slips, map_slip_assignSlips, length_assignSlips,
      length_sortByDate]
  · exact pairwise_assignSlips (pairwise_sortByDate df)

theorem slipInv_nil : slipInv [] := by
  constructor
  · rfl
  · exact List.Pairwise.nil

theorem round2_neg_nonpos {x : ℚ} (hx : 0 < x) : round2 (-x) ≤ 0 := by
  unfold round2
  have h1 : (-x) * 100 + 1 / 2 < ((1 : ℤ) : ℚ) := by push_cast; nlinarith
  have h2 : ⌊(-x) * 100 + 1 / 2⌋ ≤ 0 := by
    have := Int.floor_lt.mpr h1
    omega
  have h3 : ((⌊(-x) * 100 + 1 / 2⌋ : ℤ) : ℚ) ≤ 0 := by exact_mod_cast h2
  have h4 : (0 : ℚ) < 100 := by norm_num
  exact div_nonpos_of_nonpos_of_nonneg h3 (le_of_lt h4)

theorem betInv_applyRes {b : Bet} {r : SettleResult} (h : resInv r) :
    betInv (applyRes b r) := by
  simpa [betInv, applyRes] using h

theorem resInv_resetRes : resInv resetRes := by
  simp [resInv, resetRes]

theorem resInv_winRes (o : String) (bet odds : ℚ) :
    resInv (winRes o bet odds) := by
  simp [resInv, winRes]

theorem resInv_lossRes (o : String) {bet : ℚ} (hb : 0 < bet) :
    resInv (lossRes o bet) := by
  refine ⟨by simp [lossRes], fun hpos => absurd hpos ?_⟩
  simp only [lossRes]
  exact not_lt.mpr (round2_neg_nonpos hb)

theorem settle_core_resInv {wt : WagerType} {pred : String} {bet odds : ℚ}
    {decl : String} {r : SettleResult} (hb : 0 < bet)
    (h : settle_core wt pred bet odds decl = some r) : resInv r := by
  cases wt <;> simp only [settle_core] at h
  · split at h
    · split at h <;> (cases h)
      · exact resInv_winRes _ _ _
      · exact resInv_lossRes _ hb
    · split at h
      · cases h; exact resInv_winRes _ _ _
      · cases h; exact resInv_lossRes _ hb
  · split at h
    · split at h <;> (cases h)
      · exact resInv_winRes _ _ _
      · exact resInv_lossRes _ hb
    · cases h

theorem update_outcome_row_betInv {b b2 : Bet} {decl : String}
    (hb : 0 < b.bet_amount) (h : update_outcome_row b decl = Except.ok b2) :
    betInv b2 := by
  unfold update_outcome_row at h
  split at h
  · cases h; exact betInv_applyRes resInv_resetRes
  · rcases hc : settle_core b.wager_type b.prediction b.bet_amount b.odds decl
      with _ | r
    · rw [hc] at h; cases h
    · rw [hc] at h; cases h
      exact betInv_applyRes (settle_core_resInv hb hc)

theorem save_edit_outcome_resInv {wt : WagerType} {pred : String}
    {bet odds : ℚ} {decl : String} {r : SettleResult} (hb : 0 < bet)
    (h : save_edit_outcome wt pred bet odds decl = Except.ok r) : resInv r := by
  unfold save_edit_outcome at h
  split at h
  · cases h; exact resInv_resetRes
  · rcases hc : settle_core wt pred bet odds decl with _ | r2
    · rw [hc] at h; cases h
    · rw [hc] at h; cases h
      exact settle_core_resInv hb hc

theorem betInv_assignSlips {n : Nat} {l : List Bet}
    (h : ∀ b ∈ l, betInv b) : ∀ a ∈ assignSlips n l, betInv a := by
  intro a ha
  rcases mem_assignSlips ha with ⟨c, hc, k, rfl⟩
  exact h c hc

theorem betInv_renumber {df : List Bet} (h : ∀ b ∈ df, betInv b) :
    ∀ a ∈ renumber_slips df, betInv a := by
  intro a ha
  exact betInv_assignSlips (fun b hb => h b (mem_sortByDate.mp hb)) a ha

theorem add_bet_ok {acc : Account} {wt : WagerType} {m p text : String}
    {bet odds : ℚ} {df : List Bet} {now : Nat} {r : Bool} {df2 : List Bet}
    (h : add_bet acc wt m p text bet odds df now = Except.ok (r, df2)) :
    ∃ dm dp od sels, mk_fields wt m p text odds = Except.ok (dm, dp, od, sels) ∧
      df2 = renumber_slips (df ++
        [{ date := now, matchName := dm, prediction := dp, bet_amount := bet,
           odds := od, outcome := none, result_amount := 0, profit_loss := 0,
           wager_type := wt, selections := sels, slip_no := maxSlip df + 1,
           status := Status.Pending }]) := by
  unfold add_bet at h
  split at h
  · cases h
  · rcases hf : mk_fields wt m p text odds with e | ⟨dm, dp, od, sels⟩
    · rw [hf] at h; cases h
    · rw [hf] at h
      cases h
      exact ⟨dm, dp, od, sels, rfl, rfl⟩

theorem update_outcome_ok {df : List Bet} {idx : Nat} {decl : String}
    {df2 : List Bet} (h : update_outcome df idx decl = Except.ok df2) :
    ∃ b b2, df[idx]? = some b ∧ update_outcome_row b decl = Except.ok b2 ∧
      df2 = renumber_slips (df.set idx b2) := by
  unfold update_outcome at h
  split at h
  · cases h
  · rcases hg : df[idx]? with _ | b
    · rw [hg] at h; cases h
    · rw [hg] at h
      dsimp only at h
      rcases hr : update_outcome_row b decl with e | b2
      · rw [hr] at h; cases h
      · rw [hr] at h; cases h
        exact ⟨b, b2, rfl, hr, rfl⟩

theorem save_edit_ok {wt : WagerType} {m p : String} {bet odds : ℚ}
    {decl text : String} {df : List Bet} {idx : Nat} {df2 : List Bet}
    (h : save_edit wt m p bet odds decl text df idx = Except.ok df2) :
    ∃ row dm dp od sels r2, df[idx]? = some row ∧
      mk_fields wt m p text odds = Except.ok (dm, dp, od, sels) ∧
      save_edit_outcome wt dp bet od decl = Except.ok r2 ∧
      df2 = renumber_slips (df.set idx (applyRes
        { row with wager_type := wt, matchName := dm, prediction := dp,
                   bet_amount := bet, odds := od, selections := sels } r2)) := by
  unfold save_edit at h
  split at h
  · cases h
  · rcases hg : df[idx]? with _ | row
    · rw [hg] at h; cases h
    · rw [hg] at h
      dsimp only at h
      rcases hf : mk_fields wt m p text odds with e | ⟨dm, dp, od, sels⟩
      · rw [hf] at h; cases h
      · rw [hf] at h
        dsimp only at h
        rcases hs : save_edit_outcome wt dp bet od decl with e | r2
        · rw [hs] at h; cases h
        · rw [hs] at h; cases h
          exact ⟨row, dm, dp, od, sels, r2, rfl, rfl, hs, rfl⟩

theorem confirm_delete_ok {df : List Bet} {idx : Nat} {df2 : List Bet}
    (h : confirm_delete df idx = Except.ok df2) :
    df2 = renumber_slips (df.eraseIdx idx) := by
  unfold confirm_delete at h
  split at h
  · cases h; rfl
  · cases h

theorem applyOp_slipInv {df : List Bet} (op : Op) (h : slipInv df) :
    slipInv (applyOp df op) := by
  cases op with
  | add acc wt m p text bet odds now =>
    rcases ha : add_bet acc wt m p text bet odds df now with e | ⟨r, df2⟩
    · simpa [applyOp, ha] using h
    · rcases add_bet_ok ha with ⟨dm, dp, od, sels, _, rfl⟩
      simp only [applyOp, ha]
      exact renumber_slipInv _
  | settle idx decl =>
    rcases hu : update_outcome df idx decl with e | df2
    · simpa [applyOp, hu] using h
    · rcases update_outcome_ok hu with ⟨b, b2, _, _, rfl⟩
      simp only [applyOp, hu]
      exact renumber_slipInv _
  | edit idx wt m p bet odds decl text =>
    rcases hs : save_edit wt m p bet odds decl text df idx with e | df2
    · simpa [applyOp, hs] using h
    · rcases save_edit_ok hs with ⟨row, dm, dp, od, sels, r2, _, _, _, rfl⟩
      simp only [applyOp, hs]
      exact renumber_slipInv _
  | delete idx =>
    rcases hd : confirm_delete df idx with e | df2
    · simpa [applyOp, hd] using h
    · rcases confirm_delete_ok hd with rfl
      simp only [applyOp, hd]
      exact renumber_slipInv _
  | load rows =>
    simp only [applyOp, load_data]
    split
    · exact slipInv_nil
    · exact renumber_slipInv _

theorem chunkRuns_replicate (b : Bool) :
    ∀ n, chunkRuns (List.replicate n b) = if n = 0 then [] else [(b, n)] := by
  intro n
  induction n with
  | zero => rfl
  | succ k ih =>
    rw [List.replicate_succ, chunkRuns, ih]
    by_cases hk : k = 0
    · subst hk; rfl
    · rw [if_neg hk]
      simp [hk]

theorem chunkRuns_head (x : Bool) (xs : List Bool) :
    ∃ n rest, chunkRuns (x :: xs) = (x, n) :: rest := by
  rw [chunkRuns]
  rcases chunkRuns xs with _ | ⟨⟨y, n⟩, rest⟩
  · exact ⟨1, [], rfl⟩
  · by_cases h : x = y
    · subst h; exact ⟨n + 1, rest, by simp⟩
    · exact ⟨1, (y, n) :: rest, by simp [h]⟩

theorem streakMax_cons_ne {b x : Bool} (xs : List Bool) (h : x ≠ b) :
    streakMax b (x :: xs) = streakMax b xs := by
  unfold streakMax
  rw [chunkRuns]
  rcases hc : chunkRuns xs with _ | ⟨⟨y, n⟩, rest⟩
  · simp [h]
  · by_cases hxy : x = y
    · subst hxy
      simp [h]
    · simp [hxy, h]

theorem chunkRuns_replicate_append {b x : Bool} (xs : List Bool) (h : x ≠ b) :
    ∀ n, chunkRuns (List.replicate n b ++ x :: xs) =
      (if n = 0 then [] else [(b, n)]) ++ chunkRuns (x :: xs) := by
  intro n
  induction n with
  | zero => simp
  | succ k ih =>
    rw [List.replicate_succ, List.cons_append, chunkRuns, ih]
    by_cases hk : k = 0
    · subst hk
      simp only [if_pos rfl, List.nil_append]
      rcases chunkRuns_head x xs with ⟨n2, rest, hh⟩
      rw [hh]
      have hbx : ¬b = x := fun hbx => h hbx.symm
      simp [hbx]
    · simp [hk, List.cons_append]

theorem streakMax_replicate (b : Bool) :
    ∀ n, streakMax b (List.replicate n b) = n := by
  intro n
  unfold streakMax
  rw [chunkRuns_replicate]
  by_cases hn : n = 0
  · subst hn; rfl
  · simp [hn]

theorem streakMax_replicate_append {b x : Bool} (xs : List Bool) (h : x ≠ b)
    (n : Nat) : streakMax b (List.replicate n b ++ x :: xs) =
      max n (streakMax b xs) := by
  unfold streakMax
  rw [chunkRuns_replicate_append xs h n, List.filter_append]
  have h2 := streakMax_cons_ne xs h
  unfold streakMax at h2
  by_cases hn : n = 0
  · subst hn
    simp [h2]
  · simp only [if_neg hn]
    have hfilter : List.filter (fun p => p.1 == b) [(b, n)] = [(b, n)] := by
      simp
    rw [hfilter]
    simp only [List.cons_append, List.nil_append, List.foldr_cons]
    rw [h2]

theorem maxRunAux_eq (b : Bool) :
    ∀ (l : List Bool) (cur best : Nat),
      maxRunAux b l cur best =
        max best (streakMax b (List.replicate cur b ++ l)) := by
  intro l
  induction l with
  | nil =>
    intro cur best
    rw [maxRunAux]
    simp only [List.append_nil, streakMax_replicate]
    exact Nat.max_comm cur best
  | cons x xs ih =>
    intro cur best
    by_cases hxb : x = b
    · subst hxb
      rw [maxRunAux, if_pos rfl, ih]
      have h3 : List.replicate (cur + 1) x ++ xs =
          List.replicate cur x ++ x :: xs := by
        rw [List.replicate_succ' cur x, List.append_assoc]
        rfl
      rw [h3]
    · rw [maxRunAux, if_neg hxb, ih, streakMax_replicate_append xs hxb cur]
      simp only [List.replicate, List.nil_append]
      rw [Nat.max_comm cur best, Nat.max_assoc]

theorem maxRun_eq_streakMax (b : Bool) (l : List Bool) :
    streakMax b l = maxRun b l := by
  rw [maxRun, maxRunAux_eq]
  simp

theorem parseLine_eq (line : String) : parseLine line = specLineParse line := by
  simp only [parseLine, specLineParse]
  generalize pySplit line = ws
  rcases hr : ws.reverse with _ | ⟨od, _ | ⟨pr, _ | ⟨m1, ms⟩⟩⟩
  · have hw : ws = [] := by
      have h1 := congrArg List.reverse hr
      simpa using h1
    subst hw
    rfl
  · have hw : ws = [od] := by
      have h1 := congrArg List.reverse hr
      simpa using h1
    subst hw
    rfl
  · have hw : ws = [pr, od] := by
      have h1 := congrArg List.reverse hr
      simpa using h1
    subst hw
    rfl
  · have hw : ws = (m1 :: ms).reverse ++ [pr, od] := by
      have h1 := congrArg List.reverse hr
      rw [List.reverse_reverse] at h1
      rw [h1]
      simp
    subst hw
    have hlen : ((m1 :: ms).reverse ++ [pr, od]).length = ms.length + 3 := by
      simp
    rw [hlen]
    have hnot : ¬ (ms.length + 3 < 3) := by omega
    rw [if_neg hnot]
    have hlast : ((m1 :: ms).reverse ++ [pr, od]).getLast? = some od := by
      rw [← List.head?_reverse, hr]
      rfl
    have hidx2 : ms.length + 3 - 2 = ms.length + 1 := by omega
    rw [hidx2]
    have hidx : ((m1 :: ms).reverse ++ [pr, od])[ms.length + 1]? = some pr := by
      have h5 : ((m1 :: ms).reverse ++ [pr, od]).reverse[1]? = some pr := by
        rw [hr]
        rfl
      rw [List.getElem?_reverse (by simp [hlen])] at h5
      rw [hlen] at h5
      have h6 : ms.length + 3 - 1 - 1 = ms.length + 1 := by omega
      rw [h6] at h5
      exact h5
    rw [hlast, hidx]
    have htake : ((m1 :: ms).reverse ++ [pr, od]).take (ms.length + 1) =
        (m1 :: ms).reverse := by
      have h8 : ms.length + 1 = ((m1 :: ms).reverse).length := by simp
      rw [h8, List.take_left]
    rw [htake]

theorem parse_selections_eq_spec (text : String) :
    parse_selections text = (pyLines text).filterMap specLineParse := by
  unfold parse_selections
  exact List.filterMap_congr (fun a _ => parseLine_eq a)

/-- C1 (amended): for every Single wager settled through `update_outcome`
with a non-empty declaration other than "Pending": declaration "Win" sets the
outcome to the stored prediction with the win payout
(`result_amount = round(bet*odds, 2)`, `profit_loss = round(result_amount -
bet, 2)`, status Win); declaration "Loss" sets the outcome to the literal
string "Loss" with `result_amount = 0`, `profit_loss = round(-bet, 2)`,
status Loss; otherwise the declaration is an asserted actual outcome: equal
to the stored prediction (case-sensitive) it wins with the win payout, and
any other non-empty string loses with the declared string stored verbatim,
`result_amount = 0` and `profit_loss = round(-bet, 2)`.  (The frozen claim
stated `profit_loss = -bet_amount` without the 2-decimal rounding on the
loss paths; the counterexample shows they differ.) -/
theorem single_settlement_cases (b : Bet) (decl : String)
    (hwt : b.wager_type = WagerType.Single) (hne : decl ≠ "")
    (hnp : decl ≠ "Pending") :
    update_outcome_row b decl = Except.ok (applyRes b
      (if decl = "Win" then winRes b.prediction b.bet_amount b.odds
       else if decl = "Loss" then lossRes "Loss" b.bet_amount
       else if decl = b.prediction then winRes decl b.bet_amount b.odds
       else lossRes decl b.bet_amount)) := by
  unfold update_outcome_row
  rw [if_neg hnp, hwt]
  unfold settle_core
  by_cases h1 : decl = "Win"
  · subst h1
    simp
  · by_cases h2 : decl = "Loss"
    · subst h2
      simp
    · have hor : ¬(decl = "Win" ∨ decl = "Loss") := by tauto
      by_cases h3 : decl = b.prediction
      · simp only [if_neg hor, if_pos h3, if_neg h1, if_neg h2]
      · simp only [if_neg hor, if_neg h3, if_neg h1, if_neg h2]

/-- C1 counterexample: settling the Single wager `cex1Bet` (stake 0.001)
with the literal declaration "Loss" stores `profit_loss = round(-0.001, 2)
= 0`, not `-bet_amount = -0.001` as the frozen claim states. -/
theorem single_loss_profit_is_rounded :
    update_outcome_row cex1Bet "Loss" =
      Except.ok (applyRes cex1Bet (lossRes "Loss" (1 / 1000))) ∧
    (applyRes cex1Bet (lossRes "Loss" (1 / 1000))).profit_loss = 0 ∧
    -cex1Bet.bet_amount = -(1 / 1000) ∧ (0 : ℚ) ≠ -(1 / 1000) := by
  refine ⟨rfl, ?_, rfl, by norm_num⟩
  show round2 (-(1 / 1000)) = 0
  unfold round2
  norm_num

/-- C1 witness (spec test 4): Single, prediction "Arsenal", stake 50 at odds
2.0, declared "Chelsea": outcome "Chelsea", result 0, profit -50.00, Loss. -/
theorem single_asserted_loss_example :
    update_outcome_row w1Bet "Chelsea" =
      Except.ok (applyRes w1Bet (lossRes "Chelsea" 50)) ∧
    (applyRes w1Bet (lossRes "Chelsea" 50)).outcome = some "Chelsea" ∧
    (applyRes w1Bet (lossRes "Chelsea" 50)).result_amount = 0 ∧
    (applyRes w1Bet (lossRes "Chelsea" 50)).profit_loss = -50 ∧
    (applyRes w1Bet (lossRes "Chelsea" 50)).status = Status.Loss := by
  have h := single_settlement_cases w1Bet "Chelsea" rfl (by decide) (by decide)
  refine ⟨h.trans (by rfl), rfl, rfl, ?_, rfl⟩
  show round2 (-(50 : ℚ)) = -50
  unfold round2
  norm_num

/-- C2: an Accumulator wager is created with odds equal to the product of its
selections' odds, and its settlement accepts only "Win"/"Loss"/"Pending":
"Win" gives `result_amount = round(bet*odds, 2)`, `profit_loss =
round(result_amount - bet, 2)`, status Win, outcome "Win"; "Loss" gives
`result_amount = 0`, `profit_loss = round(-bet, 2)`, status Loss, outcome
"Loss"; anything else is an InvalidOutcome error. -/
theorem accumulator_product_odds_and_settlement :
    (∀ (text dm dp : String) (od : ℚ) (sels : List Selection),
      acc_fields text = Except.ok (dm, dp, od, sels) → od = prodOdds sels) ∧
    (∀ b : Bet, b.wager_type = WagerType.Accumulator →
      update_outcome_row b "Win" =
        Except.ok (applyRes b (winRes "Win" b.bet_amount b.odds)) ∧
      update_outcome_row b "Loss" =
        Except.ok (applyRes b (lossRes "Loss" b.bet_amount))) ∧
    (∀ (b : Bet) (decl : String), b.wager_type = WagerType.Accumulator →
      decl ≠ "Win" → decl ≠ "Loss" → decl ≠ "Pending" →
      update_outcome_row b decl = Except.error OpErr.invalidOutcome) := by
  refine ⟨?_, ?_, ?_⟩
  · intro text dm dp od sels h
    unfold acc_fields at h
    by_cases ht : text = ""
    · rw [if_pos ht] at h
      cases h
    · rw [if_neg ht] at h
      dsimp only at h
      by_cases hs : parse_selections text = []
      · rw [if_pos hs] at h
        cases h
      · rw [if_neg hs] at h
        cases h
        rfl
  · intro b hwt
    constructor
    · unfold update_outcome_row settle_core
      rw [hwt]
      simp
    · unfold update_outcome_row settle_core
      rw [hwt]
      simp
  · intro b decl hwt h1 h2 h3
    unfold update_outcome_row settle_core
    rw [if_neg h3, hwt]
    simp [h1, h2]

/-- C2 witness (spec test 3): Accumulator with stake 100 and combined odds
3.5 declared "Win" gives result 350.00 and profit 250.00; a declaration
"Draw" is rejected; the fixture's selection odds multiply to 3.5. -/
theorem accumulator_settlement_example :
    update_outcome_row w2Bet "Win" =
      Except.ok (applyRes w2Bet (winRes "Win" 100 (7 / 2))) ∧
    (applyRes w2Bet (winRes "Win" 100 (7 / 2))).result_amount = 350 ∧
    (applyRes w2Bet (winRes "Win" 100 (7 / 2))).profit_loss = 250 ∧
    update_outcome_row w2Bet "Draw" = Except.error OpErr.invalidOutcome ∧
    prodOdds w2Bet.selections = 7 / 2 := by
  have h := accumulator_product_odds_and_settlement
  refine ⟨(h.2.1 w2Bet rfl).1.trans (by rfl), ?_, ?_,
    h.2.2 w2Bet "Draw" rfl (by decide) (by decide) (by decide), ?_⟩
  · show round2 ((100 : ℚ) * (7 / 2)) = 350
    unfold round2
    norm_num
  · show round2 (round2 ((100 : ℚ) * (7 / 2)) - 100) = 250
    unfold round2
    norm_num
  · show prodOdds [⟨"A", "X", 7 / 4⟩, ⟨"B", "Y", 2⟩] = 7 / 2
    unfold prodOdds
    simp
    norm_num

/-- C5 (amended): declaring "Pending" resets a wager (outcome null,
result_amount 0, profit_loss 0, status Pending) at any time in both
settlement operations; in edit-and-resettle an empty declaration also
resets; but in update-outcome an empty declaration fails the input guard
and leaves the ledger unchanged (the frozen claim said the empty
declaration resets there too). -/
theorem pending_reset_paths :
    (∀ b : Bet,
      update_outcome_row b "Pending" = Except.ok (applyRes b resetRes)) ∧
    (∀ (wt : WagerType) (pred : String) (bet odds : ℚ),
      save_edit_outcome wt pred bet odds "Pending" = Except.ok resetRes ∧
      save_edit_outcome wt pred bet odds "" = Except.ok resetRes) ∧
    (∀ (df : List Bet) (idx : Nat),
      update_outcome df idx "" = Except.error OpErr.noInput ∧
      applyOp df (Op.settle idx "") = df) :=
  ⟨fun _ => rfl, fun _ _ _ _ => ⟨rfl, rfl⟩, fun _ _ => ⟨rfl, rfl⟩⟩

/-- C5 counterexample: the settled wager `cex5Bet` submitted to
`update_outcome` with an empty declaration is NOT reset: the callback guard
fails and the ledger is unchanged, still holding the settled row. -/
theorem empty_declaration_does_not_reset :
    update_outcome [cex5Bet] 0 "" = Except.error OpErr.noInput ∧
    applyOp [cex5Bet] (Op.settle 0 "") = [cex5Bet] ∧
    cex5Bet.outcome = some "A" ∧ cex5Bet.status = Status.Win :=
  ⟨rfl, rfl, rfl, rfl⟩

/-- C10 (amended): the Analytics Engine's win classification of a settled
Single wager is exactly `outcome = prediction` (case-sensitive), independent
of the stored status and of the sign of profit_loss; in particular a Single
wager whose prediction is the literal string "Loss" settled with the
declaration "Loss" is stored with status Loss and `profit_loss =
round(-bet_amount, 2)` (the frozen claim omitted the rounding), yet
`is_win` classifies it as a win. -/
theorem analytics_single_win_by_prediction (b : Bet)
    (hwt : b.wager_type = WagerType.Single) :
    (b.outcome.isSome → (is_win b = true ↔ b.outcome = some b.prediction)) ∧
    (b.prediction = "Loss" →
      update_outcome_row b "Loss" =
        Except.ok (applyRes b (lossRes "Loss" b.bet_amount)) ∧
      (applyRes b (lossRes "Loss" b.bet_amount)).status = Status.Loss ∧
      (applyRes b (lossRes "Loss" b.bet_amount)).profit_loss =
        round2 (-b.bet_amount) ∧
      is_win (applyRes b (lossRes "Loss" b.bet_amount)) = true) := by
  constructor
  · intro _
    simp [is_win, hwt]
  · intro hpred
    refine ⟨?_, rfl, rfl, ?_⟩
    · unfold update_outcome_row settle_core
      rw [hwt]
      simp
    · simp [is_win, applyRes, lossRes, hwt, hpred]

/-- C10 counterexample: the Single wager `cex10Bet` (prediction "Loss",
stake 0.003) declared "Loss" stores `profit_loss = round(-0.003, 2) = 0`,
not `-bet_amount` as the frozen claim stated - while indeed being counted
as a win by the analytics classification. -/
theorem loss_prediction_profit_rounded :
    update_outcome_row cex10Bet "Loss" =
      Except.ok (applyRes cex10Bet (lossRes "Loss" (3 / 1000))) ∧
    (applyRes cex10Bet (lossRes "Loss" (3 / 1000))).status = Status.Loss ∧
    (applyRes cex10Bet (lossRes "Loss" (3 / 1000))).profit_loss = 0 ∧
    (0 : ℚ) ≠ -cex10Bet.bet_amount ∧
    is_win (applyRes cex10Bet (lossRes "Loss" (3 / 1000))) = true := by
  refine ⟨rfl, rfl, ?_, ?_, by decide⟩
  · show round2 (-(3 / 1000)) = 0
    unfold round2
    norm_num
  · show (0 : ℚ) ≠ -(3 / 1000)
    norm_num

/-- C10 witness: the Single wager `w10Bet` (prediction "Loss", stake 10)
declared "Loss" gets status Loss and profit -10, yet is classified as a
win by the analytics. -/
theorem loss_prediction_counted_win_example :
    update_outcome_row w10Bet "Loss" =
      Except.ok (applyRes w10Bet (lossRes "Loss" 10)) ∧
    (applyRes w10Bet (lossRes "Loss" 10)).status = Status.Loss ∧
    (applyRes w10Bet (lossRes "Loss" 10)).profit_loss = -10 ∧
    is_win (applyRes w10Bet (lossRes "Loss" 10)) = true := by
  have h := (analytics_single_win_by_prediction w10Bet rfl).2 rfl
  refine ⟨h.1.trans (by rfl), h.2.1, ?_, h.2.2.2⟩
  exact (h.2.2.1).trans (by norm_num [w10Bet, round2])

theorem mem_of_getElem?_some {l : List Bet} {n : Nat} {a : Bet}
    (h : l[n]? = some a) : a ∈ l := by
  rcases List.getElem?_eq_some.mp h with ⟨hlt, rfl⟩
  exact l.getElem_mem hlt

/-- C3: for every sequence of operations on one account's ledger, starting
from a freshly loaded state, after each operation the slip numbers down the
stored ledger are exactly 1..N and the rows are in ascending date order
(slip 1 is the earliest date); every mutating path ends in
`renumber_slips`. -/
theorem renumbering_invariant_after_ops (rows : List Bet) (ops : List Op) :
    slipInv (List.foldl applyOp (load_data rows) ops) := by
  have h0 : slipInv (load_data rows) := by
    unfold load_data
    split
    · exact slipInv_nil
    · exact renumber_slipInv rows
  suffices hgen : ∀ (df : List Bet), slipInv df → ∀ (l : List Op),
      slipInv (List.foldl applyOp df l) by exact hgen _ h0 ops
  intro df hdf l
  induction l generalizing df with
  | nil => exact hdf
  | cons op rest ih => exact ih (applyOp df op) (applyOp_slipInv op hdf)

/-- C4 (amended): after any operation on a ledger of coherent rows with
positive stakes, every stored row satisfies `status = Pending ⟺ outcome
is null` and `profit_loss > 0 → status = Win`.  (The frozen claim asserted
the full equivalence `status = Win ⟺ profit_loss > 0` for settled rows;
the converse direction fails: a Win declaration at odds ≤ 1 stores status
Win with non-positive profit, see the counterexample.) -/
theorem status_invariant_preserved (df : List Bet) (op : Op)
    (hdf : ∀ b ∈ df, 0 < b.bet_amount ∧ betInv b) (hop : wfOp op) :
    ∀ b ∈ applyOp df op, betInv b := by
  cases op with
  | add acc wt m p text bet odds now =>
    rcases ha : add_bet acc wt m p text bet odds df now with e | ⟨r, df2⟩
    · simp only [applyOp, ha]
      exact fun b hb => (hdf b hb).2
    · rcases add_bet_ok ha with ⟨dm, dp, od, sels, _, rfl⟩
      simp only [applyOp, ha]
      apply betInv_renumber
      intro b hb
      rcases List.mem_append.mp hb with hb | hb
      · exact (hdf b hb).2
      · rcases List.mem_singleton.mp hb with rfl
        exact ⟨by simp, by norm_num⟩
  | settle idx decl =>
    rcases hu : update_outcome df idx decl with e | df2
    · simp only [applyOp, hu]
      exact fun b hb => (hdf b hb).2
    · rcases update_outcome_ok hu with ⟨b0, b2, hg, hrow, rfl⟩
      simp only [applyOp, hu]
      apply betInv_renumber
      intro b hb
      rcases List.mem_or_eq_of_mem_set hb with hb | rfl
      · exact (hdf b hb).2
      · exact update_outcome_row_betInv (hdf b0 (mem_of_getElem?_some hg)).1 hrow
  | edit idx wt m p bet odds decl text =>
    rcases hs : save_edit wt m p bet odds decl text df idx with e | df2
    · simp only [applyOp, hs]
      exact fun b hb => (hdf b hb).2
    · rcases save_edit_ok hs with ⟨row, dm, dp, od, sels, r2, hg, hf, hso, rfl⟩
      simp only [applyOp, hs]
      apply betInv_renumber
      intro b hb
      rcases List.mem_or_eq_of_mem_set hb with hb | rfl
      · exact (hdf b hb).2
      · exact betInv_applyRes (save_edit_outcome_resInv hop hso)
  | delete idx =>
    rcases hd : confirm_delete df idx with e | df2
    · simp only [applyOp, hd]
      exact fun b hb => (hdf b hb).2
    · rcases confirm_delete_ok hd with rfl
      simp only [applyOp, hd]
      apply betInv_renumber
      intro b hb
      exact (hdf b (List.mem_of_mem_eraseIdx hb)).2
  | load rows =>
    simp only [applyOp, load_data]
    split
    · intro b hb
      cases hb
    · apply betInv_renumber
      exact fun b hb => (hop b hb).1

/-- C4 counterexample: settling the Single wager `cex4Bet` (stake 10 at
odds 1.0) with the declaration "Win" stores status Win with
`profit_loss = 0`, so for this settled wager `status = Win` holds while
`profit_loss > 0` does not - refuting the claimed equivalence. -/
theorem settled_win_with_zero_profit :
    applyOp [cex4Bet] (Op.settle 0 "Win") =
      [{ applyRes cex4Bet (winRes "A" 10 1) with slip_no := 1 }] ∧
    (applyRes cex4Bet (winRes "A" 10 1)).status = Status.Win ∧
    (applyRes cex4Bet (winRes "A" 10 1)).outcome = some "A" ∧
    (applyRes cex4Bet (winRes "A" 10 1)).profit_loss = 0 := by
  refine ⟨rfl, rfl, rfl, ?_⟩
  show round2 (round2 ((10 : ℚ) * 1) - 10) = 0
  unfold round2
  norm_num

/-- C4 witness: the row produced by settling `w4Bet` (stake 10 at odds 2)
as "Win" satisfies the amended invariant. -/
theorem status_invariant_example :
    betInv { applyRes w4Bet (winRes "A" 10 2) with slip_no := 1 } := by
  have h := status_invariant_preserved [w4Bet] (Op.settle 0 "Win")
    (by
      intro b hb
      rcases List.mem_singleton.mp hb with rfl
      constructor
      · norm_num [w4Bet]
      · exact ⟨by simp [w4Bet], by norm_num [w4Bet]⟩)
    trivial
  apply h
  rw [show applyOp [w4Bet] (Op.settle 0 "Win") =
    [{ applyRes w4Bet (winRes "A" 10 2) with slip_no := 1 }] from rfl]
  exact List.mem_singleton.mpr rfl

/-- C6: settling an Accumulator wager with a declaration that is neither
"Win", "Loss" nor "Pending" (and not empty) fails with the InvalidOutcome
error in both `update_outcome` and `save_edit`, the operation is aborted and
the ledger is left entirely unchanged (nothing is persisted: `save_data`
is only called on success paths). -/
theorem invalid_accumulator_outcome_aborts (df : List Bet) (idx : Nat)
    (b : Bet) (decl : String) (hg : df[idx]? = some b)
    (hwt : b.wager_type = WagerType.Accumulator) (h1 : decl ≠ "Win")
    (h2 : decl ≠ "Loss") (h3 : decl ≠ "Pending") (h4 : decl ≠ "") :
    (update_outcome df idx decl = Except.error OpErr.invalidOutcome ∧
     applyOp df (Op.settle idx decl) = df) ∧
    (∀ (m p : String) (bet odds : ℚ) (text dm dp : String) (od : ℚ)
       (sels : List Selection), bet ≠ 0 →
       acc_fields text = Except.ok (dm, dp, od, sels) →
       save_edit WagerType.Accumulator m p bet odds decl text df idx =
         Except.error OpErr.invalidOutcome ∧
       applyOp df (Op.edit idx WagerType.Accumulator m p bet odds decl text) =
         df) := by
  have hrow : update_outcome_row b decl =
      Except.error OpErr.invalidOutcome := by
    unfold update_outcome_row settle_core
    rw [if_neg h3, hwt]
    simp [h1, h2]
  have hu : update_outcome df idx decl =
      Except.error OpErr.invalidOutcome := by
    unfold update_outcome
    rw [if_neg h4, hg]
    dsimp only
    rw [hrow]
  refine ⟨⟨hu, by simp only [applyOp, hu]⟩, ?_⟩
  intro m p bet odds text dm dp od sels hbet hacc
  have hso : save_edit_outcome WagerType.Accumulator dp bet od decl =
      Except.error OpErr.invalidOutcome := by
    unfold save_edit_outcome settle_core
    rw [if_neg (show ¬(decl = "Pending" ∨ decl = "") by tauto)]
    simp [h1, h2]
  have hse : save_edit WagerType.Accumulator m p bet odds decl text df idx =
      Except.error OpErr.invalidOutcome := by
    unfold save_edit
    rw [if_neg hbet, hg]
    dsimp only
    rw [show mk_fields WagerType.Accumulator m p text odds = acc_fields text
      from rfl, hacc]
    dsimp only
    rw [hso]
  exact ⟨hse, by simp only [applyOp, hse]⟩

/-- C6 witness: the Accumulator `w6Bet` declared "Draw" is rejected by both
settlement operations and the one-row ledger is unchanged. -/
theorem invalid_outcome_example :
    update_outcome [w6Bet] 0 "Draw" = Except.error OpErr.invalidOutcome ∧
    applyOp [w6Bet] (Op.settle 0 "Draw") = [w6Bet] ∧
    save_edit WagerType.Accumulator "" "" 10 2 "Draw" "A X 2\nB Y 2"
      [w6Bet] 0 = Except.error OpErr.invalidOutcome ∧
    applyOp [w6Bet]
      (Op.edit 0 WagerType.Accumulator "" "" 10 2 "Draw" "A X 2\nB Y 2") =
      [w6Bet] := by
  have h := invalid_accumulator_outcome_aborts [w6Bet] 0 w6Bet "Draw" rfl rfl
    (by decide) (by decide) (by decide) (by decide)
  have h2 := h.2 "" "" 10 2 "A X 2\nB Y 2" _ _ _ _ (by norm_num) rfl
  exact ⟨h.1.1, h.1.2, h2.1, h2.2⟩

/-- C7 (amended): parsing of the free-text accumulator selections input
tokenizes each line on whitespace; a line is valid only if it has at least 3
tokens and its last token parses as a float (the odds - the frozen claim
required a POSITIVE float, but the code performs no sign check), with the
second-to-last token as the prediction and all preceding tokens joined by
spaces as the match name; invalid lines are silently skipped; and the
parse fails with the format error exactly when the (non-empty) input yields
no valid line. -/
theorem selection_parser_amended (text : String) :
    parse_selections text = (pyLines text).filterMap specLineParse ∧
    (acc_fields text = Except.error OpErr.invalidFormat ↔
      (text ≠ "" ∧ parse_selections text = [])) := by
  refine ⟨parse_selections_eq_spec text, ?_⟩
  unfold acc_fields
  by_cases ht : text = ""
  · rw [if_pos ht]
    simp [ht]
  · rw [if_neg ht]
    dsimp only
    by_cases hs : parse_selections text = []
    · rw [if_pos hs]
      simp [ht, hs]
    · rw [if_neg hs]
      simp [ht, hs]

/-- C7 counterexample: the line "Home vs Away -2.0" is accepted by the code
(odds -2.0 parses as a float; there is no positivity check) while under the
frozen claim it would be invalid and hence skipped, leaving no valid line. -/
theorem negative_odds_line_accepted :
    parse_selections "Home vs Away -2.0" = [⟨"Home vs", "Away", -2⟩] ∧
    (pyLines "Home vs Away -2.0").filterMap specLineParsePos = [] ∧
    ¬ ((0 : ℚ) < -2) := by
  have hd2 : digitsToNat ['2'] = 2 := by decide
  have hd0 : digitsToNat ['0'] = 0 := by decide
  have hm : mantissaVal ['2'] ['0'] = 2 := by
    rw [mantissaVal, hd2, hd0]
    norm_num
  have h1 : parse_selections "Home vs Away -2.0" =
      [⟨"Home vs", "Away", -(mantissaVal ['2'] ['0'])⟩] := rfl
  have h2 : specLineParse "Home vs Away -2.0" =
      some ⟨"Home vs", "Away", -(mantissaVal ['2'] ['0'])⟩ := rfl
  refine ⟨?_, ?_, by norm_num⟩
  · rw [h1, hm]
  · have h3 : specLineParsePos "Home vs Away -2.0" = none := by
      unfold specLineParsePos
      rw [h2]
      dsimp only
      rw [hm]
      norm_num
    have h4 : pyLines "Home vs Away -2.0" = ["Home vs Away -2.0"] := rfl
    rw [h4]
    simp [List.filterMap_cons, h3]

/-- C8: `add_bet` computes `current_bankroll = initial_bankroll + sum of
profit_loss`, `max_allowed = (max_bet_percent / 100) * current_bankroll`,
flags the bet as risky iff `bet_amount > max_allowed` (strict), and - risky
or not - appends the wager to the ledger: the risk check never blocks the
add, and the ledger grows by exactly one row. -/
theorem risk_check_and_add (acc : Account) (wt : WagerType)
    (m p text : String) (bet odds : ℚ) (df : List Bet) (now : Nat)
    (dm dp : String) (od : ℚ) (sels : List Selection) (h0 : bet ≠ 0)
    (h1 : mk_fields wt m p text odds = Except.ok (dm, dp, od, sels)) :
    add_bet acc wt m p text bet odds df now = Except.ok
      (decide (acc.max_bet_percent / 100 *
        (acc.initial_bankroll + (df.map (fun b => b.profit_loss)).sum) < bet),
       renumber_slips (df ++
         [⟨now, dm, dp, bet, od, none, 0, 0, wt, sels, maxSlip df + 1,
           Status.Pending⟩])) ∧
    (∀ b2 : Bet, (renumber_slips (df ++ [b2])).length = df.length + 1) := by
  constructor
  · unfold add_bet
    rw [if_neg h0, h1]
  · intro b2
    rw [renumber_slips, length_assignSlips, length_sortByDate,
      List.length_append]
    rfl

/-- C8 witness (spec test 7): account with initial bankroll 1000 and max
bet percent 5, empty ledger: a stake of exactly 50.00 is NOT risky
(boundary uses strict >) and a stake of 50.01 IS risky; both bets are
added. -/
theorem risk_boundary_example :
    add_bet a0 WagerType.Single "M" "P" "" 50 2 [] 7 =
      Except.ok (false, [w8Bet 50]) ∧
    add_bet a0 WagerType.Single "M" "P" "" (5001 / 100) 2 [] 7 =
      Except.ok (true, [w8Bet (5001 / 100)]) := by
  have ha := risk_check_and_add a0 WagerType.Single "M" "P" "" 50 2 [] 7
    "M" "P" 2 [⟨"M", "P", 2⟩] (by norm_num) rfl
  have hb := risk_check_and_add a0 WagerType.Single "M" "P" "" (5001 / 100) 2
    [] 7 "M" "P" 2 [⟨"M", "P", 2⟩] (by norm_num) rfl
  constructor
  · rw [ha.1]
    rw [show decide (a0.max_bet_percent / 100 * (a0.initial_bankroll +
        (([] : List Bet).map (fun b => b.profit_loss)).sum) < (50 : ℚ)) =
        false from decide_eq_false (by norm_num [a0])]
    rfl
  · rw [hb.1]
    rw [show decide (a0.max_bet_percent / 100 * (a0.initial_bankroll +
        (([] : List Bet).map (fun b => b.profit_loss)).sum) <
        ((5001 : ℚ) / 100)) = true from decide_eq_true (by norm_num [a0])]
    rfl

/-- C9: the streak computation equals, for every ledger, the longest
maximal run of wins resp. losses in the date-sorted settled is-win
sequence; both streaks are 0 when there are no settled wagers; and the
sequence W,W,L,W,W,W,L,L yields (3, 2). -/
theorem streaks_are_longest_runs :
    (∀ df : List Bet, get_streaks df =
      (maxRun true (isWinSeq df), maxRun false (isWinSeq df))) ∧
    (∀ df : List Bet, isWinSeq df = [] → get_streaks df = (0, 0)) ∧
    get_streaks exLedger = (3, 2) := by
  refine ⟨?_, ?_, ?_⟩
  · intro df
    show (streakMax true (isWinSeq df), streakMax false (isWinSeq df)) = _
    rw [maxRun_eq_streakMax, maxRun_eq_streakMax]
  · intro df h
    show (streakMax true (isWinSeq df), streakMax false (isWinSeq df)) = _
    rw [h]
    rfl
  · decide

/-- C9 witness: a ledger whose only wager is pending has no settled rows
and both streaks are 0. -/
theorem no_settled_no_streaks_example : get_streaks [exPending] = (0, 0) :=
  streaks_are_longest_runs.2.1 [exPending] rfl
